/-
Verification of the zarr kvs-backed chunk driver
(tensorstore/driver/zarr/driver.cc) against its specification.

The file shallowly embeds the driver's data model and operations.
Functions defined in driver.cc are translated directly; helper
functions that live in other translation units of the repository
(metadata.cc / spec.cc / index-space utilities) are modelled from the
specification and carry a doc comment saying so.
-/
import Mathlib

namespace internal_zarr

/-! ## Basic types -/

/-- Error codes of the absl-style status values produced by the driver. -/
inductive ErrorCode where
  | kOk
  | kFailedPrecondition
  | kInvalidArgument
  | kAlreadyExists
  | kNotFound
  deriving DecidableEq, Repr

/-- An absl-style error status: a code together with a message. -/
structure Err where
  code : ErrorCode
  msg : String
  deriving DecidableEq, Repr

/-- `DimensionSeparator` from zarr metadata: chunk keys are joined with
`'.'` or `'/'`. -/
inductive DimensionSeparator where
  | kDotSeparated
  | kSlashSeparated
  deriving DecidableEq, Repr

/-- `kImplicit` sentinel index value (`-0x8000000000000000` in the source). -/
def kImplicit : Int := -(2 ^ 63)

/-- `kInfIndex` (`0x3fffffffffffffff` in the source): largest valid index. -/
def kInfIndex : Int := 2 ^ 62 - 1

/-- `ExplicitIndexOr(value, default)`: `value` unless it is the `kImplicit`
sentinel, in which case `default`. -/
def ExplicitIndexOr (value default_value : Int) : Int :=
  if value = kImplicit then default_value else value

/-! ## Metadata model

`ZarrMetadata` (decoded `.zarray` descriptor).  Arrays (fill values) are
modelled by their shape, which is all the driver code under verification
inspects. -/

/-- One field of a (possibly structured) zarr dtype: a base-dtype code,
a field name, and the field-intrinsic trailing shape. -/
structure ZarrField where
  dtypeCode : Nat
  name : String
  field_shape : List Nat
  deriving DecidableEq, Repr

/-- A (possibly null) array value; modelled by its shape.  `none` models the
null / not-set `SharedArray`. -/
structure ArrayValue where
  shape : List Nat
  deriving DecidableEq, Repr

/-- Decoded zarr array metadata (the `.zarray` descriptor). -/
structure ZarrMetadata where
  zarr_format : Nat
  rank : Nat
  shape : List Int
  chunks : List Int
  fields : List ZarrField
  compressor : Nat
  filters : Nat
  order : Bool
  fill_value : List (Option ArrayValue)
  dimension_separator : Option DimensionSeparator
  deriving DecidableEq, Repr

/-- `ZarrPartialMetadata`: the optional metadata constraints recorded in a
spec; every field may be absent. -/
structure ZarrPartialMetadata where
  zarr_format : Option Nat
  rank : Option Nat
  shape : Option (List Int)
  chunks : Option (List Int)
  fields : Option (List ZarrField)
  compressor : Option Nat
  filters : Option Nat
  order : Option Bool
  fill_value : Option (List (Option ArrayValue))
  dimension_separator : Option DimensionSeparator
  deriving DecidableEq, Repr

/-- The schema constraints carried by a spec (only the parts the verified
code inspects). -/
structure Schema where
  fill_value : Option ArrayValue
  deriving DecidableEq, Repr

/-- `ZarrDriver::SpecData`: partial metadata, selected field and schema. -/
structure SpecData where
  partial_metadata : ZarrPartialMetadata
  selected_field : String
  schema : Schema
  deriving DecidableEq, Repr

/-- An index transform, modelled by its validity and output rank (all the
verified driver code inspects). -/
structure IndexTransform where
  valid : Bool
  output_rank : Nat
  deriving DecidableEq, Repr

/-! ## Dimension-separator selection (driver.cc lines 44-56) -/

/-- `GetDimensionSeparatorChar`: `'.'` for dot-separated, `'/'` otherwise. -/
def GetDimensionSeparatorChar (dimension_separator : DimensionSeparator) : Char :=
  if dimension_separator = DimensionSeparator.kDotSeparated then '.' else '/'

/-- `GetDimensionSeparator(partial_metadata, metadata)`: metadata value if
present, else spec's partial-metadata value, else dot-separated. -/
def GetDimensionSeparator (partial_metadata : ZarrPartialMetadata)
    (metadata : ZarrMetadata) : DimensionSeparator :=
  match metadata.dimension_separator with
  | some sep => sep
  | none =>
    match partial_metadata.dimension_separator with
    | some sep => sep
    | none => DimensionSeparator.kDotSeparated

/-! ## Metadata compatibility (driver.cc lines 251-266) -/

/-- Modelled from the spec: `IsMetadataCompatible` (defined in metadata.cc,
not part of the sources under verification) holds when the two metadata
values agree on everything that affects chunk addressing — rank, chunk
shape, and field layout — with differences confined to the resizable
shape extents. -/
def IsMetadataCompatible (existing new_metadata : ZarrMetadata) : Bool :=
  existing.rank = new_metadata.rank ∧
    existing.chunks = new_metadata.chunks ∧
    existing.fields = new_metadata.fields

/-- `DataCache::ValidateMetadataCompatibility`: `Ok` when
`IsMetadataCompatible`, otherwise a failed-precondition error. -/
def ValidateMetadataCompatibility (existing_metadata new_metadata : ZarrMetadata) :
    Except Err Unit :=
  if IsMetadataCompatible existing_metadata new_metadata then
    Except.ok ()
  else
    Except.error
      { code := ErrorCode.kFailedPrecondition
      , msg := "Updated zarr metadata is incompatible with existing metadata" }

/-! ## Chunk grid bounds (driver.cc lines 268-281) -/

/-- The output of `DataCache::GetChunkGridBounds`: grid origin, shape, and
implicit-bound markers, each of rank `metadata.shape.length`. -/
structure ChunkGridBounds where
  origin : List Int
  shape : List Int
  implicit_lower_bounds : List Bool
  implicit_upper_bounds : List Bool
  deriving DecidableEq, Repr

/-- `DataCache::GetChunkGridBounds`: origin filled with `0`, shape copied
from the metadata, lower bounds explicit, upper bounds implicit. -/
def GetChunkGridBounds (metadata : ZarrMetadata) : ChunkGridBounds :=
  { origin := metadata.shape.map fun _ => (0 : Int)
  , shape := metadata.shape
  , implicit_lower_bounds := metadata.shape.map fun _ => false
  , implicit_upper_bounds := metadata.shape.map fun _ => true }

/-! ## Resize (driver.cc lines 283-298) -/

/-- `DataCache::GetResizedMetadata`.  The C++ function `assert`s that the
spans have the metadata's rank and that every requested inclusive min is
`0` (possibly via the `kImplicit` sentinel); an assertion failure is a
logic-error abort, modelled by `none`.  Otherwise it copies the metadata,
replacing each shape extent whose requested exclusive max is not the
`kImplicit` sentinel. -/
def GetResizedMetadata (existing_metadata : ZarrMetadata)
    (new_inclusive_min new_exclusive_max : List Int) : Option ZarrMetadata :=
  let rank := existing_metadata.shape.length
  if rank = new_inclusive_min.length ∧ rank = new_exclusive_max.length ∧
      ∀ i ∈ new_inclusive_min, ExplicitIndexOr i 0 = 0 then
    some { existing_metadata with
            shape := List.zipWith
              (fun old_size new_size =>
                if new_size = kImplicit then old_size else new_size)
              existing_metadata.shape new_exclusive_max }
  else
    none

/-! ## Deprecated `key_encoding` spec member (driver.cc lines 132-148) -/

/-- The load half of the `key_encoding` binder: when the deprecated member
is present, it must agree with any `dimension_separator` already recorded
in the partial metadata (a value-mismatch is an invalid-argument error);
the alias value is then adopted. -/
def LoadKeyEncoding (obj : SpecData) (key_encoding : Option DimensionSeparator) :
    Except Err SpecData :=
  match key_encoding with
  | none => Except.ok obj
  | some value =>
    match obj.partial_metadata.dimension_separator with
    | some sep =>
      if sep ≠ value then
        Except.error
          { code := ErrorCode.kInvalidArgument
          , msg := "value does not match value in metadata" }
      else
        Except.ok { obj with
          partial_metadata := { obj.partial_metadata with
            dimension_separator := some value } }
    | none =>
      Except.ok { obj with
        partial_metadata := { obj.partial_metadata with
          dimension_separator := some value } }

/-! ## Chunk storage keys (driver.cc lines 363-367 and 479-491) -/

/-- Decimal digit characters, as printed by `StrAppend`. -/
def digitChar (d : Nat) : Char :=
  match d with
  | 0 => '0' | 1 => '1' | 2 => '2' | 3 => '3' | 4 => '4'
  | 5 => '5' | 6 => '6' | 7 => '7' | 8 => '8' | 9 => '9'
  | _ => '0'

/-- The numeric value of a decimal digit character. -/
def digitVal (c : Char) : Nat :=
  match c with
  | '0' => 0 | '1' => 1 | '2' => 2 | '3' => 3 | '4' => 4
  | '5' => 5 | '6' => 6 | '7' => 7 | '8' => 8 | '9' => 9
  | _ => 0

/-- Decimal representation of a natural number (most significant digit
first), as produced by `StrAppend` for a non-negative index. -/
def natRepr (n : Nat) : List Char :=
  if n = 0 then ['0'] else ((Nat.digits 10 n).map digitChar).reverse

/-- Decimal representation of an index, with a leading minus sign when
negative. -/
def intRepr (i : Int) : List Char :=
  if i < 0 then '-' :: natRepr (-i).toNat else natRepr i.toNat

/-- `EncodeChunkIndices(indices, dimension_separator)`: the cell indices
printed in decimal and joined by the separator character (no leading or
trailing separator). -/
def EncodeChunkIndices (indices : List Int)
    (dimension_separator : DimensionSeparator) : List Char :=
  let separator := GetDimensionSeparatorChar dimension_separator
  match indices with
  | [] => []
  | i0 :: rest => intRepr i0 ++ (rest.map fun i => separator :: intRepr i).flatten

/-- The state of a `DataCache` used by `GetChunkStorageKey`: the fixed key
prefix and the dimension separator chosen at construction. -/
structure DataCache where
  key_prefix_ : List Char
  dimension_separator_ : DimensionSeparator
  deriving DecidableEq, Repr

/-- `DataCache::GetChunkStorageKey`: concatenation of the cache's key
prefix with the encoded chunk indices. -/
def GetChunkStorageKey (cache : DataCache) (cell_indices : List Int) : List Char :=
  cache.key_prefix_ ++ EncodeChunkIndices cell_indices cache.dimension_separator_

/-- Parse a decimal digit string back to a natural number (reverse of
`natRepr`). -/
def parseNatChars (s : List Char) : Nat :=
  s.foldl (fun acc c => acc * 10 + digitVal c) 0

/-- Split a key (suffix) on the separator character and parse each piece in
decimal: the reverse of `EncodeChunkIndices` on non-negative indices. -/
def DecodeChunkIndicesFromKey (key : List Char)
    (dimension_separator : DimensionSeparator) : List Nat :=
  (key.splitOn (GetDimensionSeparatorChar dimension_separator)).map parseNatChars

/-! ## Metadata encode/decode (driver.cc lines 58-88)

`ZarrMetadata::FromJson` and the JSON serialization of `ZarrMetadata` live
in metadata.cc, which is not among the sources under verification, and the
spec places JSON mechanics out of scope; the byte-level codec is therefore
modelled from the spec as a concrete token-stream serialization that is
executable in both directions.  A "byte" stream is a `List Nat` of
tokens. -/

/-- Serialize a natural number as one token. -/
def encNat (n : Nat) : List Nat := [n]

/-- Parse one natural-number token. -/
def decNat : List Nat → Option (Nat × List Nat)
  | [] => none
  | n :: rest => some (n, rest)

/-- Serialize an integer as a sign token followed by a magnitude token. -/
def encInt (i : Int) : List Nat :=
  if i < 0 then [1, (-i).toNat] else [0, i.toNat]

/-- Parse an integer: sign token then magnitude token; a negative zero is
rejected so that the encoding is canonical. -/
def decInt : List Nat → Option (Int × List Nat)
  | 0 :: m :: rest => some ((m : Int), rest)
  | 1 :: m :: rest => if m = 0 then none else some (-(m : Int), rest)
  | _ => none

/-- Serialize a boolean as one token. -/
def encBool (b : Bool) : List Nat := [if b then 1 else 0]

/-- Parse a boolean token. -/
def decBool : List Nat → Option (Bool × List Nat)
  | 0 :: rest => some (false, rest)
  | 1 :: rest => some (true, rest)
  | _ => none

/-- Serialize a list: a length token followed by the serialized elements. -/
def encList (f : α → List Nat) (l : List α) : List Nat :=
  l.length :: (l.map f).flatten

/-- Parse `n` consecutive elements. -/
def decListAux (f : List Nat → Option (α × List Nat)) :
    Nat → List Nat → Option (List α × List Nat)
  | 0, ts => some ([], ts)
  | n + 1, ts => do
    let (a, ts1) ← f ts
    let (as, ts2) ← decListAux f n ts1
    some (a :: as, ts2)

/-- Parse a length-prefixed list. -/
def decList (f : List Nat → Option (α × List Nat))
    (ts : List Nat) : Option (List α × List Nat) := do
  let (n, ts1) ← decNat ts
  decListAux f n ts1

/-- Serialize an option: a presence token, then the value if present. -/
def encOption (f : α → List Nat) : Option α → List Nat
  | none => [0]
  | some a => 1 :: f a

/-- Parse an option. -/
def decOption (f : List Nat → Option (α × List Nat)) :
    List Nat → Option (Option α × List Nat)
  | 0 :: rest => some (none, rest)
  | 1 :: rest => do
    let (a, ts1) ← f rest
    some (some a, ts1)
  | _ => none

/-- Serialize a string as the length-prefixed list of its character codes. -/
def encString (s : String) : List Nat :=
  encList (fun c => [c.toNat]) s.toList

/-- Parse a string. -/
def decString (ts : List Nat) : Option (String × List Nat) := do
  let (cs, ts1) ← decList (fun ts => do
    let (n, ts1) ← decNat ts
    some (Char.ofNat n, ts1)) ts
  some (String.mk cs, ts1)

/-- Serialize a dimension separator. -/
def encSep : DimensionSeparator → List Nat
  | DimensionSeparator.kDotSeparated => [0]
  | DimensionSeparator.kSlashSeparated => [1]

/-- Parse a dimension separator. -/
def decSep : List Nat → Option (DimensionSeparator × List Nat)
  | 0 :: rest => some (DimensionSeparator.kDotSeparated, rest)
  | 1 :: rest => some (DimensionSeparator.kSlashSeparated, rest)
  | _ => none

/-- Serialize an array value (its shape). -/
def encArrayValue (a : ArrayValue) : List Nat :=
  encList encNat a.shape

/-- Parse an array value. -/
def decArrayValue (ts : List Nat) : Option (ArrayValue × List Nat) := do
  let (shape, ts1) ← decList decNat ts
  some ({ shape := shape }, ts1)

/-- Serialize one dtype field. -/
def encZarrField (f : ZarrField) : List Nat :=
  encNat f.dtypeCode ++ encString f.name ++ encList encNat f.field_shape

/-- Parse one dtype field. -/
def decZarrField (ts : List Nat) : Option (ZarrField × List Nat) := do
  let (dtypeCode, ts1) ← decNat ts
  let (name, ts2) ← decString ts1
  let (field_shape, ts3) ← decList decNat ts2
  some ({ dtypeCode := dtypeCode, name := name, field_shape := field_shape }, ts3)

/-- Modelled from the spec: `EncodeMetadata` serializes a metadata value to
bytes losslessly (the JSON dump of `ZarrMetadata` in the source lives in
metadata.cc, outside the sources under verification). -/
def EncodeMetadata (metadata : ZarrMetadata) : List Nat :=
  encNat metadata.zarr_format ++ encNat metadata.rank ++
    encList encInt metadata.shape ++ encList encInt metadata.chunks ++
    encList encZarrField metadata.fields ++ encNat metadata.compressor ++
    encNat metadata.filters ++ encBool metadata.order ++
    encList (encOption encArrayValue) metadata.fill_value ++
    encOption encSep metadata.dimension_separator

/-- Parse a full metadata value from a token stream. -/
def decZarrMetadata (ts : List Nat) : Option (ZarrMetadata × List Nat) := do
  let (zarr_format, ts1) ← decNat ts
  let (rank, ts2) ← decNat ts1
  let (shape, ts3) ← decList decInt ts2
  let (chunks, ts4) ← decList decInt ts3
  let (fields, ts5) ← decList decZarrField ts4
  let (compressor, ts6) ← decNat ts5
  let (filters, ts7) ← decNat ts6
  let (order, ts8) ← decBool ts7
  let (fill_value, ts9) ← decList (decOption decArrayValue) ts8
  let (dimension_separator, ts10) ← decOption decSep ts9
  some ({ zarr_format := zarr_format, rank := rank, shape := shape
        , chunks := chunks, fields := fields, compressor := compressor
        , filters := filters, order := order, fill_value := fill_value
        , dimension_separator := dimension_separator }, ts10)

/-- `ParseEncodedMetadata`: parse a full descriptor from the bytes,
returning a failed-precondition decode error when the bytes cannot be
parsed (modelled from the spec for the parsing itself; the error path
mirrors driver.cc lines 58-68). -/
def ParseEncodedMetadata (encoded_value : List Nat) : Except Err ZarrMetadata :=
  match decZarrMetadata encoded_value with
  | some (metadata, []) => Except.ok metadata
  | _ => Except.error { code := ErrorCode.kFailedPrecondition, msg := "Invalid JSON" }

/-- `MetadataCache::DecodeMetadata`: delegates to `ParseEncodedMetadata`. -/
def DecodeMetadata (encoded_metadata : List Nat) : Except Err ZarrMetadata :=
  ParseEncodedMetadata encoded_metadata

/-- Do the bytes parse into a (fully consumed) valid descriptor? -/
def parsesToDescriptor (encoded_value : List Nat) : Bool :=
  match decZarrMetadata encoded_value with
  | some (_, []) => true
  | _ => false

/-! ## Fill values (driver.cc lines 187-236) -/

/-- Modelled from the spec: `GetFieldIndex` (spec.cc, not among the sources
under verification) resolves the selected field name against the dtype's
fields: an empty selected field requires a single-field dtype and yields
index 0; otherwise the index of the field whose name matches, failing when
no field matches. -/
def GetFieldIndex (fields : List ZarrField) (selected_field : String) :
    Except Err Nat :=
  if selected_field = "" then
    if fields.length = 1 then Except.ok 0
    else Except.error { code := ErrorCode.kInvalidArgument
                      , msg := "Must specify a field" }
  else
    match fields.findIdx? (fun f => f.name = selected_field) with
    | some i => Except.ok i
    | none => Except.error { code := ErrorCode.kInvalidArgument
                           , msg := "Requested field is not one of the fields" }

/-- Modelled from the spec: `TransformOutputBroadcastableArray` (index-space
utility, an out-of-scope collaborator) broadcasts an array against the
output space of a transform with the given output domain; modelled as the
array expanded to that domain's shape. -/
def TransformOutputBroadcastableArray ( _transform : IndexTransform)
    ( _a : ArrayValue) (output_shape : List Int) : Except Err ArrayValue :=
  Except.ok { shape := output_shape.map Int.toNat }

/-- `ZarrDriver::SpecGetFillValue`: starts from the schema fill value,
overridden by the partial metadata's fill value for the selected field when
the partial metadata declares both a dtype and fill values; a null fill
value or invalid transform is returned as-is; a transform whose output rank
is below the fill value's rank is an invalid-argument error; otherwise the
fill value is broadcast against the transform over a pseudo-shape that is
unbounded on the extra leading dimensions and on size-1 dimensions. -/
def SpecGetFillValue (spec : SpecData) (transform : IndexTransform) :
    Except Err (Option ArrayValue) := do
  let schema_fill := spec.schema.fill_value
  let fill_value ←
    match spec.partial_metadata.fields, spec.partial_metadata.fill_value with
    | some metadata_fields, some metadata_fill => do
      let field_index ← GetFieldIndex metadata_fields spec.selected_field
      pure (metadata_fill.getD field_index none)
    | _, _ => pure schema_fill
  match fill_value with
  | none => Except.ok none
  | some fv =>
    if transform.valid = false then Except.ok (some fv)
    else
      let output_rank := transform.output_rank
      if output_rank < fv.shape.length then
        Except.error { code := ErrorCode.kInvalidArgument
                     , msg := "Transform is not compatible with metadata" }
      else
        let pseudo_shape : List Int :=
          List.replicate (output_rank - fv.shape.length) (kInfIndex + 1) ++
            fv.shape.map fun size =>
              if size = 1 then kInfIndex + 1 else Int.ofNat size
        (TransformOutputBroadcastableArray transform fv pseudo_shape).map some

/-- `ZarrDriver::GetFillValue`: looks up the component's fill value in the
cache's initial metadata; a null fill value yields a successful null
result; otherwise the fill value is broadcast against the transform over a
domain unbounded on the chunked dimensions followed by the field's own
shape. -/
def GetFillValue (metadata : ZarrMetadata) (component_index : Nat)
    (transform : IndexTransform) : Except Err (Option ArrayValue) :=
  match metadata.fill_value.getD component_index none with
  | none => Except.ok none
  | some fill_value =>
    let field := metadata.fields.getD component_index
      { dtypeCode := 0, name := "", field_shape := [] }
    let shape : List Int :=
      List.replicate metadata.rank (kInfIndex + 1) ++
        field.field_shape.map fun n => Int.ofNat n
    (TransformOutputBroadcastableArray transform fill_value shape).map some

/-! ## Creation (driver.cc lines 428-440) -/

/-- Modelled from the spec: `GetNewMetadata` (spec.cc, not among the
sources under verification) derives fresh metadata from the spec's partial
metadata, selected field and schema, failing when they do not determine a
full descriptor (shape, chunks, and dtype fields are required here, and
the selected field must resolve). -/
def GetNewMetadata (partial_metadata : ZarrPartialMetadata)
    (selected_field : String) (schema : Schema) : Except Err ZarrMetadata :=
  match partial_metadata.shape, partial_metadata.chunks, partial_metadata.fields with
  | some shape, some chunks, some fields => do
    let _ ← GetFieldIndex fields selected_field
    Except.ok
      { zarr_format := partial_metadata.zarr_format.getD 2
      , rank := shape.length
      , shape := shape
      , chunks := chunks
      , fields := fields
      , compressor := partial_metadata.compressor.getD 0
      , filters := partial_metadata.filters.getD 0
      , order := partial_metadata.order.getD true
      , fill_value :=
          partial_metadata.fill_value.getD (fields.map fun _ => schema.fill_value)
      , dimension_separator := partial_metadata.dimension_separator }
  | _, _, _ =>
    Except.error { code := ErrorCode.kInvalidArgument
                 , msg := "metadata does not determine a full descriptor" }

/-- `ZarrDriver::OpenState::Create`: an already-exists error when metadata
is already present for the storage entry; otherwise new metadata is derived
from the spec's partial metadata, selected field and schema, with any
failure annotated. -/
def Create (spec : SpecData) (existing_metadata : Option ZarrMetadata) :
    Except Err ZarrMetadata :=
  match existing_metadata with
  | some _ => Except.error { code := ErrorCode.kAlreadyExists, msg := "" }
  | none =>
    match GetNewMetadata spec.partial_metadata spec.selected_field spec.schema with
    | Except.ok metadata => Except.ok metadata
    | Except.error e =>
      Except.error { e with
        msg := "Cannot create using specified metadata and schema: " ++ e.msg }

/-! ## Sample values used to witness the theorems -/

/-- Does the result hold an error with the given code? -/
def isErrWithCode (r : Except Err α) (c : ErrorCode) : Bool :=
  match r with
  | Except.error e => e.code = c
  | Except.ok _ => false

/-- A one-field dtype used in examples. -/
def sampleField : ZarrField := { dtypeCode := 1, name := "x", field_shape := [] }

/-- A rank-2 metadata example: shape `[4, 4]`, chunks `[2, 2]`. -/
def sampleMetadata : ZarrMetadata :=
  { zarr_format := 2, rank := 2, shape := [4, 4], chunks := [2, 2]
  , fields := [sampleField], compressor := 0, filters := 0, order := true
  , fill_value := [none], dimension_separator := none }

/-- `sampleMetadata` with a different chunk shape. -/
def sampleMetadataOtherChunks : ZarrMetadata := { sampleMetadata with chunks := [2, 4] }

/-- `sampleMetadata` with a different (resized) shape. -/
def sampleMetadataOtherShape : ZarrMetadata := { sampleMetadata with shape := [4, 8] }

/-- A partial metadata describing `sampleMetadata`. -/
def samplePartialMetadata : ZarrPartialMetadata :=
  { zarr_format := some 2, rank := some 2, shape := some [4, 4]
  , chunks := some [2, 2], fields := some [sampleField], compressor := none
  , filters := none, order := none, fill_value := none
  , dimension_separator := none }

/-- An all-absent partial metadata. -/
def emptyPartialMetadata : ZarrPartialMetadata :=
  { zarr_format := none, rank := none, shape := none, chunks := none
  , fields := none, compressor := none, filters := none, order := none
  , fill_value := none, dimension_separator := none }

/-- A spec for `sampleMetadata` with no selected field and no schema fill
value. -/
def sampleSpec : SpecData :=
  { partial_metadata := samplePartialMetadata, selected_field := ""
  , schema := { fill_value := none } }

/-- A spec whose partial metadata declares a rank-1 fill value (shape
`[2]`) for the single field. -/
def sampleSpecWithFill : SpecData :=
  { partial_metadata := { samplePartialMetadata with
      fill_value := some [some { shape := [2] }] }
  , selected_field := "", schema := { fill_value := none } }

/-- A data cache with a two-character key prefix and dot separator. -/
def sampleCache : DataCache :=
  { key_prefix_ := ['p', '/'], dimension_separator_ := DimensionSeparator.kDotSeparated }

/-! ## Helper lemmas -/

theorem ExplicitIndexOr_eq_zero_iff (i : Int) :
    ExplicitIndexOr i 0 = 0 ↔ i = 0 ∨ i = kImplicit := by
  unfold ExplicitIndexOr
  by_cases h : i = kImplicit <;> simp [h]

theorem decNat_enc (n : Nat) (rest : List Nat) :
    decNat (encNat n ++ rest) = some (n, rest) := rfl

theorem decInt_enc (i : Int) (rest : List Nat) :
    decInt (encInt i ++ rest) = some (i, rest) := by
  unfold encInt decInt
  by_cases h : i < 0
  · have h0 : (-i).toNat ≠ 0 := by omega
    simp only [if_pos h, List.cons_append, List.nil_append, h0, if_false]
    have : ((-i).toNat : Int) = -i := Int.toNat_of_nonneg (by omega)
    rw [this, neg_neg]
  · simp only [if_neg h, List.cons_append, List.nil_append]
    have : (i.toNat : Int) = i := Int.toNat_of_nonneg (by omega)
    rw [this]

theorem decBool_enc (b : Bool) (rest : List Nat) :
    decBool (encBool b ++ rest) = some (b, rest) := by
  cases b <;> rfl

theorem decListAux_enc {α : Type} {f_enc : α → List Nat}
    {f_dec : List Nat → Option (α × List Nat)}
    (hf : ∀ a rest, f_dec (f_enc a ++ rest) = some (a, rest))
    (l : List α) (rest : List Nat) :
    decListAux f_dec l.length ((l.map f_enc).flatten ++ rest) = some (l, rest) := by
  induction l with
  | nil => rfl
  | cons a t ih =>
    simp only [List.map_cons, List.flatten_cons, List.length_cons,
      List.append_assoc]
    unfold decListAux
    rw [hf]
    simp only [Option.bind_eq_bind, Option.some_bind, ih]

theorem decList_enc {α : Type} {f_enc : α → List Nat}
    {f_dec : List Nat → Option (α × List Nat)}
    (hf : ∀ a rest, f_dec (f_enc a ++ rest) = some (a, rest))
    (l : List α) (rest : List Nat) :
    decList f_dec (encList f_enc l ++ rest) = some (l, rest) := by
  unfold encList decList
  simp only [List.cons_append, decNat, Option.bind_eq_bind, Option.some_bind]
  exact decListAux_enc hf l rest

theorem decOption_enc {α : Type} {f_enc : α → List Nat}
    {f_dec : List Nat → Option (α × List Nat)}
    (hf : ∀ a rest, f_dec (f_enc a ++ rest) = some (a, rest))
    (o : Option α) (rest : List Nat) :
    decOption f_dec (encOption f_enc o ++ rest) = some (o, rest) := by
  cases o with
  | none => rfl
  | some a =>
    simp only [encOption, List.cons_append, decOption, Option.bind_eq_bind,
      hf, Option.some_bind]

theorem decString_enc (s : String) (rest : List Nat) :
    decString (encString s ++ rest) = some (s, rest) := by
  unfold decString encString
  rw [decList_enc (fun c rest => by
    simp only [List.cons_append, List.nil_append, decNat, Option.bind_eq_bind,
      Option.some_bind, Char.ofNat_toNat])]
  rfl

theorem decSep_enc (s : DimensionSeparator) (rest : List Nat) :
    decSep (encSep s ++ rest) = some (s, rest) := by
  cases s <;> rfl

theorem decArrayValue_enc (a : ArrayValue) (rest : List Nat) :
    decArrayValue (encArrayValue a ++ rest) = some (a, rest) := by
  unfold decArrayValue encArrayValue
  rw [decList_enc decNat_enc]
  rfl

theorem decZarrField_enc (f : ZarrField) (rest : List Nat) :
    decZarrField (encZarrField f ++ rest) = some (f, rest) := by
  unfold decZarrField encZarrField
  simp only [List.append_assoc]
  rw [decNat_enc]
  simp only [Option.bind_eq_bind, Option.some_bind]
  rw [decString_enc]
  simp only [Option.some_bind]
  rw [decList_enc decNat_enc]
  rfl

theorem decZarrMetadata_enc (m : ZarrMetadata) (rest : List Nat) :
    decZarrMetadata (EncodeMetadata m ++ rest) = some (m, rest) := by
  unfold decZarrMetadata EncodeMetadata
  simp only [List.append_assoc]
  rw [decNat_enc]
  simp only [Option.bind_eq_bind, Option.some_bind]
  rw [decNat_enc]
  simp only [Option.some_bind]
  rw [decList_enc decInt_enc]
  simp only [Option.some_bind]
  rw [decList_enc decInt_enc]
  simp only [Option.some_bind]
  rw [decList_enc decZarrField_enc]
  simp only [Option.some_bind]
  rw [decNat_enc]
  simp only [Option.some_bind]
  rw [decNat_enc]
  simp only [Option.some_bind]
  rw [decBool_enc]
  simp only [Option.some_bind]
  rw [decList_enc (decOption_enc decArrayValue_enc)]
  simp only [Option.some_bind]
  rw [decOption_enc decSep_enc]
  rfl

/-! ## Claim theorems -/

/-- C1: `ValidateMetadataCompatibility(m, m')` succeeds iff `m` and `m'`
agree on rank, chunk shape, and field layout (differences confined to the
resizable shape extents are accepted); on disagreement it returns a
failed-precondition error rather than success. -/
theorem ValidateMetadataCompatibility_spec (m m' : ZarrMetadata) :
    (ValidateMetadataCompatibility m m' = Except.ok () ↔
      m.rank = m'.rank ∧ m.chunks = m'.chunks ∧ m.fields = m'.fields) ∧
    (¬(m.rank = m'.rank ∧ m.chunks = m'.chunks ∧ m.fields = m'.fields) →
      ∃ e, ValidateMetadataCompatibility m m' = Except.error e ∧
        e.code = ErrorCode.kFailedPrecondition) := by
  unfold ValidateMetadataCompatibility IsMetadataCompatible
  by_cases h : m.rank = m'.rank ∧ m.chunks = m'.chunks ∧ m.fields = m'.fields
  · simp [h]
  · simp [h]

/-- Witness for C1: two metadata values differing only in shape are
accepted; differing in chunk shape is rejected with a failed-precondition
error. -/
theorem ValidateMetadataCompatibility_spec_witness :
    ValidateMetadataCompatibility sampleMetadata sampleMetadataOtherShape =
        Except.ok () ∧
      isErrWithCode
        (ValidateMetadataCompatibility sampleMetadata sampleMetadataOtherChunks)
        ErrorCode.kFailedPrecondition = true := by
  constructor
  · exact (ValidateMetadataCompatibility_spec sampleMetadata
      sampleMetadataOtherShape).1.mpr (by decide)
  · obtain ⟨e, he, hc⟩ := (ValidateMetadataCompatibility_spec sampleMetadata
      sampleMetadataOtherChunks).2 (by decide)
    rw [he]
    simp [isErrWithCode, hc]

/-- C2: for a resize request whose inclusive min is zero (or the
`kImplicit` sentinel) in every dimension, `GetResizedMetadata` yields
metadata whose shape in each dimension is the old extent when the requested
exclusive max is the `kImplicit` sentinel and the requested value
otherwise, leaving every other field unchanged; a request with a non-zero
inclusive min is a rejected (assertion-failure) input. -/
theorem GetResizedMetadata_spec (m : ZarrMetadata) (mins maxs : List Int)
    (hmin : m.shape.length = mins.length) (hmax : m.shape.length = maxs.length) :
    ((∀ i ∈ mins, i = 0 ∨ i = kImplicit) →
      ∃ m', GetResizedMetadata m mins maxs = some m' ∧
        m'.shape.length = m.shape.length ∧
        (∀ j, j < m.shape.length →
          m'.shape.getD j 0 =
            if maxs.getD j 0 = kImplicit then m.shape.getD j 0
            else maxs.getD j 0) ∧
        m'.zarr_format = m.zarr_format ∧ m'.rank = m.rank ∧
        m'.chunks = m.chunks ∧ m'.fields = m.fields ∧
        m'.compressor = m.compressor ∧ m'.filters = m.filters ∧
        m'.order = m.order ∧ m'.fill_value = m.fill_value ∧
        m'.dimension_separator = m.dimension_separator) ∧
    ((¬ ∀ i ∈ mins, i = 0 ∨ i = kImplicit) →
      GetResizedMetadata m mins maxs = none) := by
  constructor
  · intro hall
    have hcond : m.shape.length = mins.length ∧ m.shape.length = maxs.length ∧
        ∀ i ∈ mins, ExplicitIndexOr i 0 = 0 := by
      refine ⟨hmin, hmax, fun i hi => ?_⟩
      exact (ExplicitIndexOr_eq_zero_iff i).mpr (hall i hi)
    have hres : GetResizedMetadata m mins maxs = some { m with shape := List.zipWith (fun old_size new_size => if new_size = kImplicit then old_size else new_size) m.shape maxs } := by
      unfold GetResizedMetadata
      rw [if_pos hcond]
    refine ⟨_, hres, ?_, ?_, rfl, rfl, rfl, rfl, rfl, rfl, rfl, rfl, rfl⟩
    · simp only [List.length_zipWith]
      omega
    · intro j hj
      have hj2 : j < (List.zipWith
          (fun old_size new_size =>
            if new_size = kImplicit then old_size else new_size)
          m.shape maxs).length := by
        simp only [List.length_zipWith]
        omega
      rw [List.getD_eq_getElem _ _ hj2, List.getElem_zipWith,
        List.getD_eq_getElem _ _ hj,
        List.getD_eq_getElem _ _ (show j < maxs.length by omega)]
  · intro hne
    unfold GetResizedMetadata
    rw [if_neg]
    intro hcond
    exact hne fun i hi => (ExplicitIndexOr_eq_zero_iff i).mp (hcond.2.2 i hi)

/-- Witness for C2: resizing `sampleMetadata` (shape `[4, 4]`) with
inclusive min `[0, kImplicit]` and exclusive max `[kImplicit, 8]`
succeeds, while a non-zero inclusive min aborts. -/
theorem GetResizedMetadata_spec_witness :
    (GetResizedMetadata sampleMetadata [0, kImplicit] [kImplicit, 8]).isSome
        = true ∧
      GetResizedMetadata sampleMetadata [1, 0] [kImplicit, 8] = none := by
  constructor
  · obtain ⟨m', hm', -⟩ := (GetResizedMetadata_spec sampleMetadata
      [0, kImplicit] [kImplicit, 8] (by decide) (by decide)).1 (by decide)
    rw [hm']
    rfl
  · exact (GetResizedMetadata_spec sampleMetadata [1, 0] [kImplicit, 8]
      (by decide) (by decide)).2 (by decide)

/-- C5: `GetChunkGridBounds` returns zero origin, the metadata's declared
extents as shape, all-explicit lower bounds and all-implicit upper
bounds. -/
theorem GetChunkGridBounds_spec (m : ZarrMetadata) :
    (GetChunkGridBounds m).origin = List.replicate m.shape.length 0 ∧
    (GetChunkGridBounds m).shape = m.shape ∧
    (GetChunkGridBounds m).implicit_lower_bounds =
      List.replicate m.shape.length false ∧
    (GetChunkGridBounds m).implicit_upper_bounds =
      List.replicate m.shape.length true := by
  refine ⟨?_, rfl, ?_, ?_⟩ <;>
    simp [GetChunkGridBounds, List.map_const']

/-- C6: when the deprecated `key_encoding` alias is present: it is adopted
if the modern dimension-separator field is absent; binding succeeds when
both agree; and a disagreement is an invalid-argument error. -/
theorem LoadKeyEncoding_spec (obj : SpecData) (value : DimensionSeparator) :
    (obj.partial_metadata.dimension_separator = none →
      LoadKeyEncoding obj (some value) = Except.ok { obj with
        partial_metadata := { obj.partial_metadata with
          dimension_separator := some value } }) ∧
    (obj.partial_metadata.dimension_separator = some value →
      LoadKeyEncoding obj (some value) = Except.ok { obj with
        partial_metadata := { obj.partial_metadata with
          dimension_separator := some value } }) ∧
    (∀ sep, obj.partial_metadata.dimension_separator = some sep → sep ≠ value →
      ∃ e, LoadKeyEncoding obj (some value) = Except.error e ∧
        e.code = ErrorCode.kInvalidArgument) := by
  refine ⟨?_, ?_, ?_⟩
  · intro h
    unfold LoadKeyEncoding
    rw [h]
  · intro h
    unfold LoadKeyEncoding
    rw [h]
    simp
  · intro sep h hne
    unfold LoadKeyEncoding
    rw [h]
    simp [hne]

/-- Witness for C6: with no modern field the alias is adopted; equal values
bind; a dot/slash conflict is an invalid-argument error. -/
theorem LoadKeyEncoding_spec_witness :
    LoadKeyEncoding sampleSpec (some DimensionSeparator.kSlashSeparated) =
        Except.ok { sampleSpec with
          partial_metadata := { samplePartialMetadata with
            dimension_separator := some DimensionSeparator.kSlashSeparated } } ∧
      isErrWithCode
        (LoadKeyEncoding { sampleSpec with
            partial_metadata := { samplePartialMetadata with
              dimension_separator := some DimensionSeparator.kDotSeparated } }
          (some DimensionSeparator.kSlashSeparated))
        ErrorCode.kInvalidArgument = true := by
  constructor
  · exact (LoadKeyEncoding_spec sampleSpec
      DimensionSeparator.kSlashSeparated).1 (by decide)
  · obtain ⟨e, he, hc⟩ := (LoadKeyEncoding_spec { sampleSpec with
        partial_metadata := { samplePartialMetadata with
          dimension_separator := some DimensionSeparator.kDotSeparated } }
        DimensionSeparator.kSlashSeparated).2.2
      DimensionSeparator.kDotSeparated (by decide) (by decide)
    rw [he]
    simp [isErrWithCode, hc]

/-- C8: `Create` fails with the distinct already-exists error kind when
metadata is already present, and otherwise derives the new metadata from
the spec's partial metadata, selected field and schema. -/
theorem Create_spec (spec : SpecData) :
    (∀ m, ∃ e, Create spec (some m) = Except.error e ∧
      e.code = ErrorCode.kAlreadyExists) ∧
    (∀ m, GetNewMetadata spec.partial_metadata spec.selected_field spec.schema
        = Except.ok m →
      Create spec none = Except.ok m) := by
  constructor
  · intro m
    exact ⟨_, rfl, rfl⟩
  · intro m h
    unfold Create
    rw [h]

/-- Witness for C8: creating over existing metadata is an already-exists
error; creating from `sampleSpec` with no existing metadata succeeds. -/
theorem Create_spec_witness :
    isErrWithCode (Create sampleSpec (some sampleMetadata))
        ErrorCode.kAlreadyExists = true ∧
      Create sampleSpec none = Except.ok sampleMetadata := by
  constructor
  · obtain ⟨e, he, hc⟩ := (Create_spec sampleSpec).1 sampleMetadata
    rw [he]
    simp [isErrWithCode, hc]
  · exact (Create_spec sampleSpec).2 sampleMetadata rfl

/-- C9: a component with no declared fill value yields a successful
null-array result from `GetFillValue` for any transform, not an error. -/
theorem GetFillValue_none_spec (m : ZarrMetadata) (component_index : Nat)
    (transform : IndexTransform)
    (h : m.fill_value.getD component_index none = none) :
    GetFillValue m component_index transform = Except.ok none := by
  unfold GetFillValue
  rw [h]

/-- Witness for C9: `sampleMetadata` declares no fill value for its only
component, so `GetFillValue` returns a successful null result. -/
theorem GetFillValue_none_spec_witness :
    GetFillValue sampleMetadata 0 { valid := true, output_rank := 2 } =
      Except.ok none :=
  GetFillValue_none_spec sampleMetadata 0 _ (by decide)

/-- C10: the effective dimension separator is the stored metadata's value
when present, else the spec's partial-metadata value when present, else
dot-separated. -/
theorem GetDimensionSeparator_spec (pm : ZarrPartialMetadata) (m : ZarrMetadata) :
    (∀ s, m.dimension_separator = some s → GetDimensionSeparator pm m = s) ∧
    (m.dimension_separator = none → ∀ s,
      pm.dimension_separator = some s → GetDimensionSeparator pm m = s) ∧
    (m.dimension_separator = none → pm.dimension_separator = none →
      GetDimensionSeparator pm m = DimensionSeparator.kDotSeparated) := by
  refine ⟨?_, ?_, ?_⟩
  · intro s h
    unfold GetDimensionSeparator
    rw [h]
  · intro h s h2
    unfold GetDimensionSeparator
    rw [h, h2]
  · intro h h2
    unfold GetDimensionSeparator
    rw [h, h2]

/-- Witness for C10: with no separator specified anywhere the separator is
dot; a metadata value takes precedence over the spec's. -/
theorem GetDimensionSeparator_spec_witness :
    GetDimensionSeparator emptyPartialMetadata sampleMetadata =
        DimensionSeparator.kDotSeparated ∧
      GetDimensionSeparator
        { emptyPartialMetadata with
          dimension_separator := some DimensionSeparator.kDotSeparated }
        { sampleMetadata with
          dimension_separator := some DimensionSeparator.kSlashSeparated } =
        DimensionSeparator.kSlashSeparated := by
  constructor
  · exact (GetDimensionSeparator_spec emptyPartialMetadata
      sampleMetadata).2.2 (by decide) (by decide)
  · exact (GetDimensionSeparator_spec _ _).1
      DimensionSeparator.kSlashSeparated (by decide)

/-- C4: `DecodeMetadata` applied to the bytes produced by `EncodeMetadata`
succeeds and returns the original metadata (lossless round trip), and
`DecodeMetadata` fails with a decode error on bytes that do not parse into
a valid descriptor. -/
theorem DecodeMetadata_EncodeMetadata_spec (m : ZarrMetadata) :
    DecodeMetadata (EncodeMetadata m) = Except.ok m ∧
    (∀ bytes, parsesToDescriptor bytes = false →
      ∃ e, DecodeMetadata bytes = Except.error e ∧
        e.code = ErrorCode.kFailedPrecondition ∧ e.msg = "Invalid JSON") := by
  constructor
  · unfold DecodeMetadata ParseEncodedMetadata
    have h : decZarrMetadata (EncodeMetadata m) = some (m, []) := by
      have := decZarrMetadata_enc m []
      rwa [List.append_nil] at this
    rw [h]
  · intro bytes hb
    unfold DecodeMetadata ParseEncodedMetadata
    unfold parsesToDescriptor at hb
    rcases hd : decZarrMetadata bytes with - | ⟨m', ts⟩
    · exact ⟨_, rfl, rfl, rfl⟩
    · rw [hd] at hb
      cases ts with
      | nil => simp at hb
      | cons t ts2 => exact ⟨_, rfl, rfl, rfl⟩

/-- Witness for C4: `sampleMetadata` round-trips, and the empty byte
stream is rejected with a decode error. -/
theorem DecodeMetadata_EncodeMetadata_spec_witness :
    DecodeMetadata (EncodeMetadata sampleMetadata) = Except.ok sampleMetadata ∧
      isErrWithCode (DecodeMetadata []) ErrorCode.kFailedPrecondition = true := by
  constructor
  · exact (DecodeMetadata_EncodeMetadata_spec sampleMetadata).1
  · obtain ⟨e, he, hc, -⟩ :=
      (DecodeMetadata_EncodeMetadata_spec sampleMetadata).2 [] rfl
    rw [he]
    simp [isErrWithCode, hc]

/-! ## Decimal representation lemmas (for chunk storage keys) -/

theorem digitVal_digitChar (d : Nat) (h : d < 10) : digitVal (digitChar d) = d := by
  interval_cases d <;> rfl

theorem digitChar_isDigit (d : Nat) (h : d < 10) : (digitChar d).isDigit = true := by
  interval_cases d <;> decide

theorem isDigit_of_mem_natRepr {c : Char} {n : Nat} (h : c ∈ natRepr n) :
    c.isDigit = true := by
  unfold natRepr at h
  by_cases h0 : n = 0
  · rw [if_pos h0] at h
    simp only [List.mem_singleton] at h
    rw [h]
    decide
  · rw [if_neg h0, List.mem_reverse] at h
    obtain ⟨d, hd, rfl⟩ := List.mem_map.mp h
    exact digitChar_isDigit d (Nat.digits_lt_base (by norm_num) hd)

theorem natRepr_ne_nil (n : Nat) : natRepr n ≠ [] := by
  unfold natRepr
  by_cases h0 : n = 0
  · simp [h0]
  · rw [if_neg h0]
    simpa using Nat.digits_ne_nil_iff_ne_zero.mpr h0

theorem parse_foldl_digits (l : List Nat) (hl : ∀ d ∈ l, d < 10) (a : Nat) :
    List.foldl (fun acc c => acc * 10 + digitVal c) a ((l.map digitChar).reverse) =
      a * 10 ^ l.length + Nat.ofDigits 10 l := by
  induction l generalizing a with
  | nil => simp
  | cons d t ih =>
    simp only [List.map_cons, List.reverse_cons, List.foldl_append,
      List.foldl_cons, List.foldl_nil, List.length_cons]
    rw [ih (fun x hx => hl x (List.mem_cons_of_mem _ hx)) a,
      digitVal_digitChar d (hl d (List.mem_cons_self _ _)),
      Nat.ofDigits_cons, pow_succ]
    ring

theorem parseNatChars_natRepr (n : Nat) : parseNatChars (natRepr n) = n := by
  unfold parseNatChars natRepr
  by_cases h0 : n = 0
  · rw [if_pos h0, h0]
    rfl
  · rw [if_neg h0,
      parse_foldl_digits _ (fun d hd => Nat.digits_lt_base (by norm_num) hd) 0]
    simp [Nat.ofDigits_digits]

theorem natRepr_injective {a b : Nat} (h : natRepr a = natRepr b) : a = b := by
  have h2 := congrArg parseNatChars h
  rwa [parseNatChars_natRepr, parseNatChars_natRepr] at h2

theorem intRepr_nonneg {i : Int} (h : 0 ≤ i) : intRepr i = natRepr i.toNat := by
  unfold intRepr
  rw [if_neg (by omega)]

theorem EncodeChunkIndices_cons_cons (i0 i1 : Int) (t : List Int)
    (sep : DimensionSeparator) :
    EncodeChunkIndices (i0 :: i1 :: t) sep =
      intRepr i0 ++ [GetDimensionSeparatorChar sep] ++
        EncodeChunkIndices (i1 :: t) sep := by
  simp [EncodeChunkIndices]

theorem EncodeChunkIndices_eq_intercalate (indices : List Int)
    (sep : DimensionSeparator) :
    EncodeChunkIndices indices sep =
      [GetDimensionSeparatorChar sep].intercalate (indices.map intRepr) := by
  induction indices with
  | nil => rfl
  | cons i0 rest ih =>
    cases rest with
    | nil => simp [EncodeChunkIndices, List.intercalate]
    | cons i1 t =>
      rw [EncodeChunkIndices_cons_cons, ih]
      simp [List.intercalate, List.intersperse]

theorem sepChar_not_isDigit (sep : DimensionSeparator) :
    (GetDimensionSeparatorChar sep).isDigit = false := by
  cases sep <;> decide

theorem sep_not_mem_intRepr {i : Int} (hi : 0 ≤ i) (sep : DimensionSeparator) :
    GetDimensionSeparatorChar sep ∉ intRepr i := by
  rw [intRepr_nonneg hi]
  intro hmem
  have h1 := isDigit_of_mem_natRepr hmem
  have h2 := sepChar_not_isDigit sep
  simp [h1] at h2

theorem splitOn_EncodeChunkIndices (indices : List Int) (sep : DimensionSeparator)
    (hne : indices ≠ []) (hnn : ∀ i ∈ indices, 0 ≤ i) :
    (EncodeChunkIndices indices sep).splitOn (GetDimensionSeparatorChar sep) =
      indices.map intRepr := by
  rw [EncodeChunkIndices_eq_intercalate]
  refine List.splitOn_intercalate _ _ ?_ ?_
  · intro l hl
    obtain ⟨i, hi, rfl⟩ := List.mem_map.mp hl
    exact sep_not_mem_intRepr (hnn i hi) sep
  · simpa using hne

theorem decode_intRepr_map (l : List Int) (hl : ∀ i ∈ l, 0 ≤ i) :
    ((l.map intRepr).map parseNatChars).map Int.ofNat = l := by
  induction l with
  | nil => rfl
  | cons x xs ih =>
    simp only [List.map_cons, List.cons.injEq]
    refine ⟨?_, ih fun i hi => hl i (List.mem_cons_of_mem _ hi)⟩
    rw [intRepr_nonneg (hl x (List.mem_cons_self _ _)), parseNatChars_natRepr]
    exact Int.toNat_of_nonneg (hl x (List.mem_cons_self _ _))

/-- C3: `GetChunkStorageKey` is the concatenation of the cache's fixed key
prefix with the cell indices joined by the separator character; for a fixed
prefix and rank it is injective over non-negative cell-index tuples, and
splitting the key suffix on the separator (and parsing in decimal) recovers
the original tuple. -/
theorem GetChunkStorageKey_spec (cache : DataCache) (a b : List Int)
    (ha : ∀ i ∈ a, 0 ≤ i) (hb : ∀ i ∈ b, 0 ≤ i) (hlen : a.length = b.length) :
    GetChunkStorageKey cache a =
        cache.key_prefix_ ++ EncodeChunkIndices a cache.dimension_separator_ ∧
      (GetChunkStorageKey cache a = GetChunkStorageKey cache b → a = b) ∧
      (a ≠ [] →
        (DecodeChunkIndicesFromKey
            ((GetChunkStorageKey cache a).drop cache.key_prefix_.length)
            cache.dimension_separator_).map Int.ofNat = a) := by
  have hdecode : ∀ (l : List Int), (∀ i ∈ l, 0 ≤ i) → l ≠ [] →
      (DecodeChunkIndicesFromKey
          (EncodeChunkIndices l cache.dimension_separator_)
          cache.dimension_separator_).map Int.ofNat = l := by
    intro l hl hne
    unfold DecodeChunkIndicesFromKey
    rw [splitOn_EncodeChunkIndices l _ hne hl]
    exact decode_intRepr_map l hl
  have hdrop : ∀ (l : List Int),
      (GetChunkStorageKey cache l).drop cache.key_prefix_.length =
        EncodeChunkIndices l cache.dimension_separator_ := by
    intro l
    unfold GetChunkStorageKey
    exact List.drop_left _ _
  refine ⟨rfl, ?_, ?_⟩
  · intro h
    have henc : EncodeChunkIndices a cache.dimension_separator_ =
        EncodeChunkIndices b cache.dimension_separator_ :=
      List.append_cancel_left h
    by_cases hae : a = []
    · have : b.length = 0 := by rw [← hlen, hae]; rfl
      rw [hae, List.length_eq_zero.mp this]
    · have hbe : b ≠ [] := by
        intro hb0
        rw [hb0] at hlen
        exact hae (List.length_eq_zero.mp hlen)
      rw [← hdecode a ha hae, ← hdecode b hb hbe, henc]
  · intro hne
    rw [hdrop a]
    exact hdecode a ha hne

/-- Witness for C3: the key for indices `[10, 2]` under prefix `p/` and dot
separator decodes back to `[10, 2]`. -/
theorem GetChunkStorageKey_spec_witness :
    (DecodeChunkIndicesFromKey
        ((GetChunkStorageKey sampleCache [10, 2]).drop
          sampleCache.key_prefix_.length)
        sampleCache.dimension_separator_).map Int.ofNat = [10, 2] :=
  (GetChunkStorageKey_spec sampleCache [10, 2] [10, 2] (by decide) (by decide)
    rfl).2.2 (by decide)

/-- C7: for a component whose stored fill value has rank `r`, a valid
index transform with output rank below `r` makes `SpecGetFillValue` fail
with an incompatible-rank (invalid-argument) error; with output rank at
least `r` it returns the fill value broadcast against the transform. -/
theorem SpecGetFillValue_spec (spec : SpecData) (transform : IndexTransform)
    (metadata_fields : List ZarrField)
    (metadata_fill : List (Option ArrayValue)) (i : Nat) (fv : ArrayValue)
    (hfields : spec.partial_metadata.fields = some metadata_fields)
    (hfill : spec.partial_metadata.fill_value = some metadata_fill)
    (hidx : GetFieldIndex metadata_fields spec.selected_field = Except.ok i)
    (hfv : metadata_fill.getD i none = some fv)
    (hvalid : transform.valid = true) :
    (transform.output_rank < fv.shape.length →
      ∃ e, SpecGetFillValue spec transform = Except.error e ∧
        e.code = ErrorCode.kInvalidArgument) ∧
    (fv.shape.length ≤ transform.output_rank →
      SpecGetFillValue spec transform =
        (TransformOutputBroadcastableArray transform fv
          (List.replicate (transform.output_rank - fv.shape.length)
              (kInfIndex + 1) ++
            fv.shape.map fun size =>
              if size = 1 then kInfIndex + 1 else Int.ofNat size)).map some) := by
  have hmain : SpecGetFillValue spec transform =
      if transform.output_rank < fv.shape.length then
        Except.error { code := ErrorCode.kInvalidArgument
                     , msg := "Transform is not compatible with metadata" }
      else
        (TransformOutputBroadcastableArray transform fv
          (List.replicate (transform.output_rank - fv.shape.length)
              (kInfIndex + 1) ++
            fv.shape.map fun size =>
              if size = 1 then kInfIndex + 1 else Int.ofNat size)).map some := by
    unfold SpecGetFillValue
    simp only [hfields, hfill, hidx, bind, Except.bind, pure, Except.pure,
      hfv, hvalid, Bool.true_eq_false, if_false]
  constructor
  · intro hlt
    rw [hmain, if_pos hlt]
    exact ⟨_, rfl, rfl⟩
  · intro hge
    rw [hmain, if_neg (by omega)]

/-- Witness for C7: with a stored rank-1 fill value, a valid rank-0
transform is rejected with an invalid-argument error, while a rank-2
transform receives the broadcast fill value. -/
theorem SpecGetFillValue_spec_witness :
    isErrWithCode
        (SpecGetFillValue sampleSpecWithFill { valid := true, output_rank := 0 })
        ErrorCode.kInvalidArgument = true ∧
      SpecGetFillValue sampleSpecWithFill { valid := true, output_rank := 2 } =
        Except.ok (some { shape := [2 ^ 62, 2] }) := by
  constructor
  · obtain ⟨e, he, hc⟩ := (SpecGetFillValue_spec sampleSpecWithFill
      { valid := true, output_rank := 0 } [sampleField]
      [some { shape := [2] }] 0 { shape := [2] }
      rfl rfl rfl rfl rfl).1 (by decide)
    rw [he]
    simp [isErrWithCode, hc]
  · have h := (SpecGetFillValue_spec sampleSpecWithFill
      { valid := true, output_rank := 2 } [sampleField]
      [some { shape := [2] }] 0 { shape := [2] }
      rfl rfl rfl rfl rfl).2 (by decide)
    rw [h]
    rfl

end internal_zarr
